import Mathlib

/-!
Verification of the xwd crossword library: a shallow embedding of the
AcrossLite (.puz) decoder, checksum verifier and grid-numbering model,
with theorems checking the design documentation against the code.

Bytes are modelled as `Nat` (values < 256 in any real buffer); Go strings
are byte strings and are modelled as `List Nat`; 16-bit arithmetic wraps
explicitly modulo 65536.
-/

namespace Xwd

/-- One step of the rolling checksum (body of the loop in `cksum`,
part_001 lines 333-343 / puzzle.go lines 300-310): if the low bit of the
accumulator is set, shift right and add 0x8000, else just shift right;
then add the byte, wrapping at 16 bits. -/
def cksumStep (sum b : Nat) : Nat :=
  let s := if sum % 2 = 1 then sum / 2 + 0x8000 else sum / 2
  (s + b) % 65536

/-- The rolling 16-bit checksum `cksum(data, sum)` from the source:
fold `cksumStep` over the bytes, starting from the seed. -/
def cksum (data : List Nat) (sum : Nat) : Nat :=
  data.foldl cksumStep sum

end Xwd

namespace Xwd

/-- A down or across clue (part_002 `Clue`): clue number and clue text. -/
structure Clue where
  Num : Nat
  Clue : List Nat
deriving Repr, DecidableEq

/-- The puzzle model (part_002 `Puzzle`).  The Go `map[[2]int]int`
`cellCoords` is modelled as an association list in insertion order
(the scan inserts each key at most once). -/
structure Puzzle where
  Cols : Nat
  Rows : Nat
  Title : List Nat
  Author : List Nat
  Copyright : List Nat
  Notes : List Nat
  solution : List (List Nat)
  cellCoords : List ((Nat × Nat) × Nat)
  cluesAcross : List Clue
  cluesDown : List Clue
deriving Repr, DecidableEq

/-- A puzzle with all fields empty, as produced by `&Puzzle{}`. -/
def emptyPuzzle : Puzzle :=
  { Cols := 0, Rows := 0, Title := [], Author := [], Copyright := [], Notes := [],
    solution := [], cellCoords := [], cluesAcross := [], cluesDown := [] }

/-- The byte marking an unfillable cell: `P_BLACK[0]` = '.' = 0x2e. -/
def P_BLACK : Nat := 0x2e

/-- `isBlackCell` (part_002 lines 128-130): the solution byte at
(row, col) equals '.'.  The Go code indexes `p.solution[row][col]`
unconditionally; all call sites under `SetSolution` are in range, so the
out-of-range default (0, never equal to `P_BLACK`) is unreachable there. -/
def isBlackCell (sol : List (List Nat)) (row col : Nat) : Bool :=
  (sol.getD row []).getD col 0 == P_BLACK

/-- `isAcrossCell` (part_002 lines 132-142). -/
def isAcrossCell (sol : List (List Nat)) (cols row col : Nat) : Bool :=
  if isBlackCell sol row col then false
  else if col == 0 || isBlackCell sol row (col - 1) then
    decide (col + 1 < cols) && !isBlackCell sol row (col + 1)
  else false

/-- `isDownCell` (part_002 lines 144-154). -/
def isDownCell (sol : List (List Nat)) (rows row col : Nat) : Bool :=
  if isBlackCell sol row col then false
  else if row == 0 || isBlackCell sol (row - 1) col then
    decide (row + 1 < rows) && !isBlackCell sol (row + 1) col
  else false

/-- Row-major scan order of the `i`/`j` loop nest in `SetSolution`. -/
def scanOrder (rows cols : Nat) : List (Nat × Nat) :=
  (List.range rows).flatMap fun i => (List.range cols).map fun j => (i, j)

/-- The loop state of `SetSolution`'s numbering scan: the shared counter
`c` and the three accumulating containers. -/
structure NumState where
  c : Nat
  cellCoords : List ((Nat × Nat) × Nat)
  cluesAcross : List Clue
  cluesDown : List Clue
deriving Repr, DecidableEq

/-- One iteration of the numbering loop (part_002 lines 89-104).  In the
Go code the map insert in the down branch is guarded by `!cellNumbered`;
since it would write the same `(key, c)` pair, the two guarded inserts
collapse to a single insert when the cell starts either direction. -/
def numStep (sol : List (List Nat)) (rows cols : Nat) (st : NumState)
    (ij : Nat × Nat) : NumState :=
  let a := isAcrossCell sol cols ij.1 ij.2
  let d := isDownCell sol rows ij.1 ij.2
  let cellNumbered := a || d
  { c := if cellNumbered then st.c + 1 else st.c,
    cellCoords := if cellNumbered then st.cellCoords ++ [(ij, st.c)] else st.cellCoords,
    cluesAcross := if a then st.cluesAcross ++ [{ Num := st.c, Clue := [] }] else st.cluesAcross,
    cluesDown := if d then st.cluesDown ++ [{ Num := st.c, Clue := [] }] else st.cluesDown }

/-- `Puzzle.SetSolution` (part_002 lines 71-109).  Returns the updated
puzzle and the Go error value (`none` = nil).  The receiver is returned
unchanged when validation fails, since the Go method returns before any
mutation. -/
def Puzzle.SetSolution (p : Puzzle) (grid : List (List Nat)) : Puzzle × Option String :=
  if grid.length ≠ p.Rows then
    (p, some "grid should contain as many rows as the puzzle")
  else
    match grid.findIdx? (fun r => r.length != p.Cols) with
    | some i => (p, some ("grid rows should contain as many columns as the puzzle (failed at row "
        ++ toString i ++ ")"))
    | none =>
      let st := (scanOrder p.Rows p.Cols).foldl (numStep grid p.Rows p.Cols)
        { c := 0, cellCoords := [], cluesAcross := [], cluesDown := [] }
      ({ p with solution := grid, cellCoords := st.cellCoords,
                cluesAcross := st.cluesAcross, cluesDown := st.cluesDown }, none)

end Xwd

namespace Xwd

/-- Spec transcription (spec section 4.3): a non-black cell starts an across
entry iff (col is 0 or the cell to its left is black) and (col+1 is within
bounds and the cell to its right is not black). -/
def specStartsAcross (sol : List (List Nat)) (cols row col : Nat) : Bool :=
  !isBlackCell sol row col &&
    ((col == 0 || isBlackCell sol row (col - 1)) &&
      (decide (col + 1 < cols) && !isBlackCell sol row (col + 1)))

/-- Spec transcription (spec section 4.3): a non-black cell starts a down
entry iff (row is 0 or the cell above is black) and (row+1 is within
bounds and the cell below is not black). -/
def specStartsDown (sol : List (List Nat)) (rows row col : Nat) : Bool :=
  !isBlackCell sol row col &&
    ((row == 0 || isBlackCell sol (row - 1) col) &&
      (decide (row + 1 < rows) && !isBlackCell sol (row + 1) col))

/-- A cell that starts at least one entry (and therefore gets a number). -/
def specStarts (sol : List (List Nat)) (rows cols : Nat) (ij : Nat × Nat) : Bool :=
  specStartsAcross sol cols ij.1 ij.2 || specStartsDown sol rows ij.1 ij.2

/-- Spec transcription (spec section 4.3, numbering algorithm): scan the
given cells in order with a single shared counter; a cell that starts at
least one entry receives the next counter value, incremented once per
numbered cell regardless of how many directions it starts, and a clue slot
with that number and empty text is appended to each list the cell starts.
Returns (cell-number pairs, across slots, down slots). -/
def specScan (sol : List (List Nat)) (rows cols : Nat) :
    List (Nat × Nat) → Nat → List ((Nat × Nat) × Nat) × List Clue × List Clue
  | [], _ => ([], [], [])
  | ij :: rest, c =>
    let a := specStartsAcross sol cols ij.1 ij.2
    let d := specStartsDown sol rows ij.1 ij.2
    if a || d then
      let r := specScan sol rows cols rest (c + 1)
      ((ij, c) :: r.1,
       (if a then { Num := c, Clue := [] } :: r.2.1 else r.2.1),
       (if d then { Num := c, Clue := [] } :: r.2.2 else r.2.2))
    else specScan sol rows cols rest c

/-- The concrete 5x5 grid ["CATCH", ".BOA.", "MARNE", ".T.O.", "FERNY"]
from the spec's testable properties, as byte rows. -/
def grid5 : List (List Nat) :=
  [[67, 65, 84, 67, 72],
   [46, 66, 79, 65, 46],
   [77, 65, 82, 78, 69],
   [46, 84, 46, 79, 46],
   [70, 69, 82, 78, 89]]

/-- A fresh 5x5 puzzle for the concrete scenario. -/
def puzzle5 : Puzzle := { emptyPuzzle with Rows := 5, Cols := 5 }

/-- A fresh 2x2 puzzle for two-run witnesses. -/
def puzzle2 : Puzzle := { emptyPuzzle with Rows := 2, Cols := 2 }

/-- 2x2 grid "AB" / ".C": black cell at (1,0) only. -/
def gridB1 : List (List Nat) := [[65, 66], [46, 67]]

/-- 2x2 grid "DE" / ".F": same black pattern as `gridB1`, different letters. -/
def gridB2 : List (List Nat) := [[68, 69], [46, 70]]

end Xwd

namespace Xwd

/-- Go slice expression `d[lo:hi]`: defined when `lo ≤ hi ≤ len(d)`
(the backing arrays here are exactly their slices, so `cap = len`);
out of range is a runtime panic, modelled as `none`. -/
def goSlice (d : List Nat) (lo hi : Nat) : Option (List Nat) :=
  if lo ≤ hi ∧ hi ≤ d.length then some ((d.drop lo).take (hi - lo)) else none

/-- Go slice expression `d[lo:]`; panic modelled as `none`. -/
def goSliceFrom (d : List Nat) (lo : Nat) : Option (List Nat) :=
  if lo ≤ d.length then some (d.drop lo) else none

/-- The parsed data of an AcrossLite puzzle file (part_001 `AcrossLite`).
`Data` is the copied input buffer; text fields are byte strings. -/
structure AcrossLite where
  Data : List Nat
  Cols : Nat
  Rows : Nat
  Title : List Nat
  Author : List Nat
  Copyright : List Nat
  Notes : List Nat
  Grid : List (List Nat)
  Solution : List (List Nat)
  Clues : List (List Nat)
  CksumFil : Nat
  CksumCib : Nat
  CksumMsk : List Nat
  CksumScr : Nat
deriving Repr, DecidableEq

/-- The 8 masked checksum bytes: "ICHEATED" XORed against the low bytes
then the high bytes of the CIB, solution, grid and partial checksums
(part_001 lines 271-280). -/
def mask8 (cCib cSol cGrid cPart : Nat) : List Nat :=
  [0x49 ^^^ (cCib &&& 0xFF),
   0x43 ^^^ (cSol &&& 0xFF),
   0x48 ^^^ (cGrid &&& 0xFF),
   0x45 ^^^ (cPart &&& 0xFF),
   0x41 ^^^ ((cCib &&& 0xFF00) >>> 8),
   0x54 ^^^ ((cSol &&& 0xFF00) >>> 8),
   0x45 ^^^ ((cGrid &&& 0xFF00) >>> 8),
   0x44 ^^^ ((cPart &&& 0xFF00) >>> 8)]

/-- One `if len(s) > 0 { ... } ; c++` block of `Verify` (part_001 lines
230-249): when the text is non-empty, chain text-plus-NUL into both
running checksums and advance the cursor past it; either way the cursor
moves one past the text (the Go code does `c += len(s)` inside the guard
and `c++` outside, with the same net effect).  State is
(cFile, cPart, cursor). -/
def textField (d s : List Nat) (st : Nat × Nat × Nat) : Option (Nat × Nat × Nat) :=
  if s.length > 0 then do
    let b ← goSlice d st.2.2 (st.2.2 + s.length + 1)
    pure (cksum b st.1, cksum b st.2.1, st.2.2 + s.length + 1)
  else pure (st.1, st.2.1, st.2.2 + 1)

/-- The clue loop of `Verify` (part_001 lines 251-255): each clue text is
chained into both checksums without its NUL, and the cursor advances past
the NUL. -/
def clueFold (d : List Nat) : List (List Nat) → Nat × Nat × Nat → Option (Nat × Nat × Nat)
  | [], st => pure st
  | clue :: rest, st => do
    let b ← goSlice d st.2.2 (st.2.2 + clue.length)
    clueFold d rest (cksum b st.1, cksum b st.2.1, st.2.2 + clue.length + 1)

/-- The notes conditional of `Verify` (part_001 lines 257-264): the notes
text plus NUL is chained into both checksums iff the running whole-file
checksum does not already equal the declared one and notes is non-empty. -/
def notesStep (fil : Nat) (notes d : List Nat) (st : Nat × Nat × Nat) : Option (Nat × Nat) :=
  if st.1 ≠ fil ∧ notes.length > 0 then do
    let b ← goSlice d st.2.2 (st.2.2 + notes.length + 1)
    pure (cksum b st.1, cksum b st.2.1)
  else pure (st.1, st.2.1)

/-- `AcrossLite.Verify` (part_001 lines 202-287).  `none` models a slice
out-of-range panic; `some b` is the Go return value. -/
def AcrossLite.Verify (a : AcrossLite) : Option Bool := do
  let size := a.Cols * a.Rows
  let dCib ← goSlice a.Data 0x2c (0x2c + 8)
  let dSol ← goSlice a.Data 0x34 (0x34 + size)
  let dGrid ← goSlice a.Data (0x34 + size) (0x34 + size + size)
  let cCib := cksum dCib 0x0000
  if cCib ≠ a.CksumCib then pure false
  else do
    let cSol := cksum dSol 0x0000
    let cGrid := cksum dGrid 0x0000
    let d ← goSliceFrom a.Data (0x34 + size + size)
    let st1 ← textField d a.Title (cksum dGrid (cksum dSol cCib), 0x0000, 0)
    let st2 ← textField d a.Author st1
    let st3 ← textField d a.Copyright st2
    let st4 ← clueFold d a.Clues st3
    let fp ← notesStep a.CksumFil a.Notes d st4
    if fp.1 ≠ a.CksumFil then pure false
    else if mask8 cCib cSol cGrid fp.2 ≠ a.CksumMsk then pure false
    else pure true

/-- The running (cFile, cPart, cursor) state of `Verify` just before the
notes conditional: the whole-file chain seeded from the CIB checksum
through the solution grid, grid grid, title, author, copyright and
clues.  Built from the same pieces `Verify` uses. -/
def AcrossLite.textTail (a : AcrossLite) : Option (Nat × Nat × Nat) := do
  let size := a.Cols * a.Rows
  let dCib ← goSlice a.Data 0x2c (0x2c + 8)
  let dSol ← goSlice a.Data 0x34 (0x34 + size)
  let dGrid ← goSlice a.Data (0x34 + size) (0x34 + size + size)
  let d ← goSliceFrom a.Data (0x34 + size + size)
  let st1 ← textField d a.Title (cksum dGrid (cksum dSol (cksum dCib 0x0000)), 0x0000, 0)
  let st2 ← textField d a.Author st1
  let st3 ← textField d a.Copyright st2
  clueFold d a.Clues st3

/-- Spec transcription (spec section 4.2): recompute the CIB checksum,
the chained whole-file checksum, the partial checksum and the masked
checksum from the buffer and compare all of them against the declared
header values; the buffer is accepted iff every comparison succeeds. -/
def verifySpec (a : AcrossLite) : Option Bool := do
  let size := a.Cols * a.Rows
  let dCib ← goSlice a.Data 0x2c (0x2c + 8)
  let dSol ← goSlice a.Data 0x34 (0x34 + size)
  let dGrid ← goSlice a.Data (0x34 + size) (0x34 + size + size)
  let cCib := cksum dCib 0x0000
  let d ← goSliceFrom a.Data (0x34 + size + size)
  let st1 ← textField d a.Title (cksum dGrid (cksum dSol cCib), 0x0000, 0)
  let st2 ← textField d a.Author st1
  let st3 ← textField d a.Copyright st2
  let st4 ← clueFold d a.Clues st3
  let fp ← notesStep a.CksumFil a.Notes d st4
  pure (cCib == a.CksumCib && (fp.1 == a.CksumFil &&
    mask8 cCib (cksum dSol 0x0000) (cksum dGrid 0x0000) fp.2 == a.CksumMsk))

/-- `binary.Read` of a little-endian uint16: consumes two bytes or fails
(io.EOF / io.ErrUnexpectedEOF, both non-nil). -/
def readU16LE : List Nat → Option (Nat × List Nat)
  | b0 :: b1 :: rest => some (b0 + 256 * b1, rest)
  | _ => none

/-- `binary.Read` of a single byte. -/
def readByteLE : List Nat → Option (Nat × List Nat)
  | b :: rest => some (b, rest)
  | [] => none

/-- `binary.Read` into a fixed-size byte slice of length `n` (via
io.ReadFull): all `n` bytes or a non-nil error. -/
def readBytesN (n : Nat) (l : List Nat) : Option (List Nat × List Nat) :=
  if n ≤ l.length then some (l.take n, l.drop n) else none

/-- `readMatrix` (part_001 lines 345-356): `rows` rows of `cols` bytes. -/
def readMatrix (rows cols : Nat) (l : List Nat) : Option (List (List Nat) × List Nat) :=
  match rows with
  | 0 => some ([], l)
  | r + 1 => do
    let rc ← readBytesN cols l
    let m ← readMatrix r cols rc.2
    pure (rc.1 :: m.1, m.2)

/-- `bytes.Buffer.ReadString(0x0)` followed by part_001 `readString`'s
NUL-chopping: returns (text, remaining, eof).  When no NUL is found the
whole remainder is returned as the text together with `eof = true`
(`ReadString` returns the partial read and io.EOF; `readString` then
passes both through). -/
def readStr : List Nat → List Nat × List Nat × Bool
  | [] => ([], [], true)
  | b :: rest =>
    if b == 0 then ([], rest, false)
    else
      let r := readStr rest
      (b :: r.1, r.2.1, r.2.2)

/-- The clue-reading loop of `Parse` (part_001 lines 173-180): `numClues`
NUL-terminated strings, any EOF is an error. -/
def readClues : Nat → List Nat → Except String (List (List Nat) × List Nat)
  | 0, l => .ok ([], l)
  | n + 1, l =>
    let r := readStr l
    if r.2.2 then .error "EOF"
    else do
      let cs ← readClues n r.2.1
      pure (r.1 :: cs.1, cs.2)

/-- Lift a failed fixed-size read to the Go error return. -/
def orEOF {α : Type} : Option α → Except String α
  | some x => .ok x
  | none => .error "EOF"

instance {ε α : Type} [DecidableEq ε] [DecidableEq α] : DecidableEq (Except ε α) := fun x y =>
  match x, y with
  | .ok a, .ok b => decidable_of_iff (a = b) (by simp)
  | .error a, .error b => decidable_of_iff (a = b) (by simp)
  | .ok _, .error _ => .isFalse (by simp)
  | .error _, .ok _ => .isFalse (by simp)

/-- The structural part of `AcrossLite.Parse` (part_001 lines 46-187):
all fixed-offset reads, the scrambled-tag check, the solution matrix, the
skipped cell grid, the text fields and clues, and the trailing notes
field whose end-of-buffer condition is tolerated (lines 182-187: the
partial text read before EOF is kept as the notes value). -/
def parseStruct (data : List Nat) : Except String AcrossLite := do
  let buf := data
  let r1 ← orEOF (readU16LE buf)
  let (cksumFil, buf) := r1
  let buf := buf.drop 12
  let r2 ← orEOF (readU16LE buf)
  let (cksumCib, buf) := r2
  let r3 ← orEOF (readBytesN 8 buf)
  let (cksumMsk, buf) := r3
  let buf := buf.drop 4
  let buf := buf.drop 2
  let r4 ← orEOF (readU16LE buf)
  let (cksumScr, buf) := r4
  let buf := buf.drop 12
  let r5 ← orEOF (readByteLE buf)
  let (cols, buf) := r5
  let r6 ← orEOF (readByteLE buf)
  let (rows, buf) := r6
  let r7 ← orEOF (readU16LE buf)
  let (numClues, buf) := r7
  let buf := buf.drop 2
  let r8 ← orEOF (readU16LE buf)
  let (scrambled, buf) := r8
  if scrambled ≠ 0 then throw "no support yet for scrambled puzzles"
  else do
    let r9 ← orEOF (readMatrix rows cols buf)
    let (solution, buf) := r9
    let buf := buf.drop (rows * cols)
    let t1 := readStr buf
    if t1.2.2 then throw "EOF"
    else do
      let t2 := readStr t1.2.1
      if t2.2.2 then throw "EOF"
      else do
        let t3 := readStr t2.2.1
        if t3.2.2 then throw "EOF"
        else do
          let cl ← readClues numClues t3.2.1
          let notes := (readStr cl.2).1
          pure { Data := data, Cols := cols, Rows := rows, Title := t1.1,
                 Author := t2.1, Copyright := t3.1, Notes := notes, Grid := [],
                 Solution := solution, Clues := cl.1, CksumFil := cksumFil,
                 CksumCib := cksumCib, CksumMsk := cksumMsk, CksumScr := cksumScr }

/-- `AcrossLite.Parse` (part_001 lines 46-199): structural decode, then
checksum verification; a false `Verify` is the "checksums aren't correct"
error, and a `Verify` panic (`none`) propagates. -/
def AcrossLite.Parse (data : List Nat) : Option (Except String AcrossLite) :=
  match parseStruct data with
  | .error e => some (.error e)
  | .ok a =>
    match a.Verify with
    | none => none
    | some true => some (.ok a)
    | some false => some (.error "checksums aren't correct")

/-- The magic bytes "ACROSS&DOWN\x00". -/
def magicBytes : List Nat := [65, 67, 82, 79, 83, 83, 38, 68, 79, 87, 78, 0]

/-- `AcrossLite.Sniff` (part_001 lines 30-43): skip 2 bytes, `Read` into
a 12-byte zeroed buffer and compare with the magic.  `bytes.Buffer.Read`
returns io.EOF only when the buffer is already empty; a partial read of
1-11 bytes returns nil error and leaves the rest of the 12 bytes zero. -/
def Sniff (data : List Nat) : Bool :=
  let rest := data.drop 2
  if rest.isEmpty then false
  else (rest.take 12 ++ List.replicate (12 - rest.length) 0) == magicBytes

/-- Go `l[i].Clue = s`: in-place text update, panic (`none`) when `i` is
out of range. -/
def setClueText (l : List Clue) (i : Nat) (s : List Nat) : Option (List Clue) :=
  match l.get? i with
  | some cl => some (l.set i { cl with Clue := s })
  | none => none

/-- `loadClues` (part_001 lines 302-331): distribute the flat clue list
into the prefilled across/down slots, always filling whichever front slot
has the lower number, across winning ties; when one side is exhausted the
rest go to the other side. -/
def loadCluesAux (aMax dMax : Nat) :
    List (List Nat) → List Clue → List Clue → Nat → Nat → Option (List Clue × List Clue)
  | [], ca, cd, _, _ => some (ca, cd)
  | cl :: rest, ca, cd, aIdx, dIdx =>
    if dIdx ≥ dMax then do
      let ca2 ← setClueText ca aIdx cl
      loadCluesAux aMax dMax rest ca2 cd (aIdx + 1) dIdx
    else if aIdx ≥ aMax then do
      let cd2 ← setClueText cd dIdx cl
      loadCluesAux aMax dMax rest ca cd2 aIdx (dIdx + 1)
    else if (cd.getD dIdx { Num := 0, Clue := [] }).Num <
        (ca.getD aIdx { Num := 0, Clue := [] }).Num then do
      let cd2 ← setClueText cd dIdx cl
      loadCluesAux aMax dMax rest ca cd2 aIdx (dIdx + 1)
    else do
      let ca2 ← setClueText ca aIdx cl
      loadCluesAux aMax dMax rest ca2 cd (aIdx + 1) dIdx

/-- `AcrossLite.Load` into a `Puzzle` (part_001 lines 291-300): copy the
header fields, set the solution (the returned error is discarded by the
Go code), then distribute clue texts. -/
def AcrossLite.LoadInto (a : AcrossLite) (p : Puzzle) : Option Puzzle :=
  let p1 := { p with Rows := a.Rows, Cols := a.Cols, Title := a.Title, Author := a.Author,
                     Copyright := a.Copyright, Notes := a.Notes }
  let p2 := (Puzzle.SetSolution p1 a.Solution).1
  match loadCluesAux p2.cluesAcross.length p2.cluesDown.length
      a.Clues p2.cluesAcross p2.cluesDown 0 0 with
  | some cacd => some { p2 with cluesAcross := cacd.1, cluesDown := cacd.2 }
  | none => none

/-- `Puzzle.Load` (part_002 lines 45-60): sniff, then parse and load via
the AcrossLite provider; a failed sniff is the NoProviderFound error.
`none` models a panic inside parsing/loading. -/
def Puzzle.Load (p : Puzzle) (data : List Nat) : Option (Except String Puzzle) :=
  if Sniff data then
    match AcrossLite.Parse data with
    | none => none
    | some (.error e) => some (.error e)
    | some (.ok a) =>
      match a.LoadInto p with
      | some p2 => some (.ok p2)
      | none => none
  else some (.error "no provider found that knows how to load this puzzle")

/-- The legacy puzzle-package model (puzzle.go `Puzzle`), restricted to
the fields `verify` consumes. -/
structure PzPuzzle where
  version : List Nat
  cols : Nat
  rows : Nat
  title : List Nat
  author : List Nat
  copyright : List Nat
  clues : List (List Nat)
  notes : List Nat
deriving Repr, DecidableEq

/-- The declared checksums of the legacy decoder (puzzle.go
`puzzleChecksums`). -/
structure PzChecksums where
  file : Nat
  cib : Nat
  masked : List Nat
  scrambled : Nat
deriving Repr, DecidableEq

/-- The version-string parse of puzzle.go Load (lines 101-112): the bytes
before the first NUL of the 4-byte field (all 4 when no NUL occurs). -/
def pzVersionOf (v : List Nat) : List Nat := v.takeWhile (fun b => b != 0)

/-- The notes conditional of puzzle.go `verify` (lines 271-276): the
notes text plus NUL is chained into both checksums iff the version is
neither "1.2" nor "1.2c" and notes is non-empty — the running checksum
value is not consulted. -/
def pzNotesStep (version notes d : List Nat) (st : Nat × Nat × Nat) : Option (Nat × Nat) :=
  if version ≠ [49, 46, 50] ∧ version ≠ [49, 46, 50, 99] ∧ notes.length > 0 then do
    let b ← goSlice d st.2.2 (st.2.2 + notes.length + 1)
    pure (cksum b st.1, cksum b st.2.1)
  else pure (st.1, st.2.1)

/-- puzzle.go `verify` (lines 215-298): identical to `AcrossLite.Verify`
except that the notes conditional tests the version string instead of the
running whole-file checksum. -/
def pzVerify (p : PzPuzzle) (data : List Nat) (sum : PzChecksums) : Option Bool := do
  let size := p.cols * p.rows
  let dCib ← goSlice data 0x2c (0x2c + 8)
  let dSol ← goSlice data 0x34 (0x34 + size)
  let dState ← goSlice data (0x34 + size) (0x34 + size + size)
  let cCib := cksum dCib 0x0000
  if cCib ≠ sum.cib then pure false
  else do
    let cSol := cksum dSol 0x0000
    let cState := cksum dState 0x0000
    let d ← goSliceFrom data (0x34 + size + size)
    let st1 ← textField d p.title (cksum dState (cksum dSol cCib), 0x0000, 0)
    let st2 ← textField d p.author st1
    let st3 ← textField d p.copyright st2
    let st4 ← clueFold d p.clues st3
    let fp ← pzNotesStep p.version p.notes d st4
    if fp.1 ≠ sum.file then pure false
    else if mask8 cCib cSol cState fp.2 ≠ sum.masked then pure false
    else pure true

/-- A fully valid 1x1 puzzle file: solution "A", grid "-", no clues,
empty title/author/copyright/notes, version 1.3, all declared checksums
equal to the recomputed ones. -/
def bufOK : List Nat :=
  [205, 129] ++ magicBytes ++ [0, 6] ++ [73, 2, 101, 69, 71, 84, 69, 68] ++
  [49, 46, 51, 0] ++ [0, 0] ++ [0, 0] ++ List.replicate 12 0 ++
  [1, 1] ++ [0, 0] ++ [0, 0] ++ [0, 0] ++ [65] ++ [45] ++ [0, 0, 0, 0]

/-- A valid 1x1 puzzle file whose version bytes read "1.2\x00" and whose
notes field is "N": its declared whole-file checksum (0x609A) equals the
chain only when the notes text plus NUL is included. -/
def data12 : List Nat :=
  [154, 96] ++ magicBytes ++ [0, 6] ++ [73, 2, 101, 98, 71, 84, 69, 68] ++
  [49, 46, 50, 0] ++ [0, 0] ++ [0, 0] ++ List.replicate 12 0 ++
  [1, 1] ++ [0, 0] ++ [0, 0] ++ [0, 0] ++ [65] ++ [45] ++ [0, 0, 0, 78, 0]

/-- A structurally valid 1x1 puzzle file whose notes field "X" runs off
the end of the buffer with no terminating NUL, with a correct CIB
checksum but a whole-file checksum (0) that does not match the running
chain before notes. -/
def buf6 : List Nat :=
  [0, 0] ++ magicBytes ++ [0, 6] ++ List.replicate 8 0 ++
  [49, 46, 51, 0] ++ [0, 0] ++ [0, 0] ++ List.replicate 12 0 ++
  [1, 1] ++ [0, 0] ++ [0, 0] ++ [0, 0] ++ [65] ++ [45] ++ [0, 0, 0, 88]

/-- A 13-byte buffer: two arbitrary bytes then the 11 bytes
"ACROSS&DOWN" with no room for the terminating NUL. -/
def data13 : List Nat := [0, 0, 65, 67, 82, 79, 83, 83, 38, 68, 79, 87, 78]

/-- Like `buf6` but the buffer ends exactly at the start of the notes
field (no notes bytes at all). -/
def buf5e : List Nat :=
  [0, 0] ++ magicBytes ++ [0, 6] ++ List.replicate 8 0 ++
  [49, 46, 51, 0] ++ [0, 0] ++ [0, 0] ++ List.replicate 12 0 ++
  [1, 1] ++ [0, 0] ++ [0, 0] ++ [0, 0] ++ [65] ++ [45] ++ [0, 0, 0]

/-- The parse result of `bufOK`. -/
def alOK : AcrossLite :=
  { Data := bufOK, Cols := 1, Rows := 1, Title := [], Author := [], Copyright := [],
    Notes := [], Grid := [], Solution := [[65]], Clues := [], CksumFil := 33229,
    CksumCib := 1536, CksumMsk := [73, 2, 101, 69, 71, 84, 69, 68], CksumScr := 0 }

end Xwd

namespace Xwd

/-- C4: the rolling checksum primitive is the identity on the empty
sequence for every 16-bit seed, splits over concatenation (chaining), and
takes the concrete values recorded in the test fixtures:
cksum([],0)=0, cksum([1,2,3,4,5],0)=0x1008, cksum([100,100,100],0xffff)=0xc0ae. -/
theorem cksum_empty_append_concrete :
    (∀ s : Nat, s < 65536 → cksum [] s = s) ∧
    (∀ (A B : List Nat) (s : Nat), s < 65536 →
      cksum (A ++ B) s = cksum B (cksum A s)) ∧
    cksum [] 0 = 0 ∧
    cksum [1, 2, 3, 4, 5] 0 = 0x1008 ∧
    cksum [100, 100, 100] 0xffff = 0xc0ae := by
  refine ⟨fun s _ => rfl, fun A B s _ => ?_, rfl, by decide, by decide⟩
  simp [cksum, List.foldl_append]

/-- Witness for `cksum_empty_append_concrete` at concrete inputs. -/
theorem cksum_empty_append_concrete_witness :
    cksum [] 7 = 7 ∧ cksum ([1, 2] ++ [3, 4, 5]) 0 = cksum [3, 4, 5] (cksum [1, 2] 0) :=
  ⟨cksum_empty_append_concrete.1 7 (by decide),
   cksum_empty_append_concrete.2.1 [1, 2] [3, 4, 5] 0 (by decide)⟩

theorem isAcrossCell_eq_spec (sol : List (List Nat)) (cols row col : Nat) :
    isAcrossCell sol cols row col = specStartsAcross sol cols row col := by
  by_cases h1 : isBlackCell sol row col <;>
    by_cases h2 : (col == 0 || isBlackCell sol row (col - 1)) = true <;>
      simp [isAcrossCell, specStartsAcross, h1, h2]

theorem isDownCell_eq_spec (sol : List (List Nat)) (rows row col : Nat) :
    isDownCell sol rows row col = specStartsDown sol rows row col := by
  by_cases h1 : isBlackCell sol row col <;>
    by_cases h2 : (row == 0 || isBlackCell sol (row - 1) col) = true <;>
      simp [isDownCell, specStartsDown, h1, h2]

theorem foldl_numStep_eq (sol : List (List Nat)) (rows cols : Nat) :
    ∀ (L : List (Nat × Nat)) (s : NumState),
      L.foldl (numStep sol rows cols) s =
        { c := s.c + L.countP (specStarts sol rows cols),
          cellCoords := s.cellCoords ++ (specScan sol rows cols L s.c).1,
          cluesAcross := s.cluesAcross ++ (specScan sol rows cols L s.c).2.1,
          cluesDown := s.cluesDown ++ (specScan sol rows cols L s.c).2.2 } := by
  intro L
  induction L with
  | nil => intro s; cases s; simp [specScan]
  | cons ij rest ih =>
    intro s
    rw [List.foldl_cons, ih]
    have ha := isAcrossCell_eq_spec sol cols ij.1 ij.2
    have hd := isDownCell_eq_spec sol rows ij.1 ij.2
    by_cases hA : specStartsAcross sol cols ij.1 ij.2 = true <;>
      by_cases hD : specStartsDown sol rows ij.1 ij.2 = true <;>
        · simp [numStep, specScan, specStarts, ha, hd, hA, hD, List.countP_cons]
          try omega

theorem setSolution_ok_eq (p : Puzzle) (grid : List (List Nat))
    (h1 : grid.length = p.Rows) (h2 : ∀ r ∈ grid, r.length = p.Cols) :
    Puzzle.SetSolution p grid =
      ({ p with solution := grid,
                cellCoords := (specScan grid p.Rows p.Cols (scanOrder p.Rows p.Cols) 0).1,
                cluesAcross := (specScan grid p.Rows p.Cols (scanOrder p.Rows p.Cols) 0).2.1,
                cluesDown := (specScan grid p.Rows p.Cols (scanOrder p.Rows p.Cols) 0).2.2 },
        none) := by
  have hfind : grid.findIdx? (fun r => r.length != p.Cols) = none := by
    rw [List.findIdx?_eq_none_iff]
    intro r hr
    simp [h2 r hr]
  unfold Puzzle.SetSolution
  rw [if_neg (by simp [h1]), hfind]
  simp [foldl_numStep_eq]

theorem setSolution_err (p : Puzzle) (grid : List (List Nat))
    (h : grid.length ≠ p.Rows ∨ ∃ r ∈ grid, r.length ≠ p.Cols) :
    (Puzzle.SetSolution p grid).1 = p ∧ (Puzzle.SetSolution p grid).2 ≠ none := by
  unfold Puzzle.SetSolution
  by_cases h1 : grid.length ≠ p.Rows
  · simp [h1]
  · cases hf : grid.findIdx? (fun r => r.length != p.Cols) with
    | none =>
      exfalso
      have hall := List.findIdx?_eq_none_iff.mp hf
      rcases h with h | ⟨r, hr, hlen⟩
      · exact h1 h
      · have := hall r hr
        simp at this
        exact hlen this
    | some i => simp [h1, hf]

theorem setSolution_ok_elim (p : Puzzle) (grid : List (List Nat)) (p' : Puzzle)
    (h : Puzzle.SetSolution p grid = (p', none)) :
    grid.length = p.Rows ∧ (∀ r ∈ grid, r.length = p.Cols) ∧
    p' = { p with solution := grid,
                  cellCoords := (specScan grid p.Rows p.Cols (scanOrder p.Rows p.Cols) 0).1,
                  cluesAcross := (specScan grid p.Rows p.Cols (scanOrder p.Rows p.Cols) 0).2.1,
                  cluesDown := (specScan grid p.Rows p.Cols (scanOrder p.Rows p.Cols) 0).2.2 } := by
  by_cases h1 : grid.length = p.Rows
  · by_cases h2 : ∀ r ∈ grid, r.length = p.Cols
    · have he := setSolution_ok_eq p grid h1 h2
      rw [h] at he
      exact ⟨h1, h2, (Prod.mk.injEq _ _ _ _).mp he |>.1⟩
    · exfalso
      push_neg at h2
      have := (setSolution_err p grid (Or.inr h2)).2
      rw [h] at this
      exact this rfl
  · exfalso
    have := (setSolution_err p grid (Or.inl h1)).2
    rw [h] at this
    exact this rfl

theorem specScan_map_snd (sol : List (List Nat)) (rows cols : Nat) :
    ∀ (L : List (Nat × Nat)) (c : Nat),
      ((specScan sol rows cols L c).1).map Prod.snd =
        List.range' c (L.countP (specStarts sol rows cols)) := by
  intro L
  induction L with
  | nil => intro c; simp [specScan]
  | cons ij rest ih =>
    intro c
    by_cases hs : (specStartsAcross sol cols ij.1 ij.2 || specStartsDown sol rows ij.1 ij.2) = true
    · simp [specScan, specStarts, hs, ih, List.countP_cons, List.range'_succ]
    · simp [specScan, specStarts, hs, ih, List.countP_cons]

theorem specScan_nums_sublist (sol : List (List Nat)) (rows cols : Nat) :
    ∀ (L : List (Nat × Nat)) (c : Nat),
      List.Sublist (((specScan sol rows cols L c).2.1).map Clue.Num)
        (List.range' c (L.countP (specStarts sol rows cols))) ∧
      List.Sublist (((specScan sol rows cols L c).2.2).map Clue.Num)
        (List.range' c (L.countP (specStarts sol rows cols))) := by
  intro L
  induction L with
  | nil => intro c; simp [specScan]
  | cons ij rest ih =>
    intro c
    obtain ⟨iha, ihd⟩ := ih (c + 1)
    obtain ⟨iha0, ihd0⟩ := ih c
    by_cases hs : (specStartsAcross sol cols ij.1 ij.2 || specStartsDown sol rows ij.1 ij.2) = true
    · have hcount : (ij :: rest).countP (specStarts sol rows cols) =
          rest.countP (specStarts sol rows cols) + 1 := by
        simp [List.countP_cons, specStarts, hs]
      rw [hcount, List.range'_succ]
      constructor
      · by_cases hA : specStartsAcross sol cols ij.1 ij.2 = true
        · simpa [specScan, hs, hA] using iha.cons₂ c
        · have hD : specStartsDown sol rows ij.1 ij.2 = true := by
            rcases Bool.or_eq_true_iff.mp hs with h | h
            · exact absurd h hA
            · exact h
          simpa [specScan, hs, hA, hD] using iha.cons c
      · by_cases hD : specStartsDown sol rows ij.1 ij.2 = true
        · simpa [specScan, hs, hD] using ihd.cons₂ c
        · have hA : specStartsAcross sol cols ij.1 ij.2 = true := by
            rcases Bool.or_eq_true_iff.mp hs with h | h
            · exact h
            · exact absurd h hD
          simpa [specScan, hs, hA, hD] using ihd.cons c
    · have hcount : (ij :: rest).countP (specStarts sol rows cols) =
          rest.countP (specStarts sol rows cols) := by
        simp [List.countP_cons, specStarts, hs]
      rw [hcount]
      exact ⟨by simpa [specScan, hs] using iha0, by simpa [specScan, hs] using ihd0⟩

theorem specScan_mem_starts (sol : List (List Nat)) (rows cols : Nat) :
    ∀ (L : List (Nat × Nat)) (c : Nat) (x : (Nat × Nat) × Nat),
      x ∈ (specScan sol rows cols L c).1 → specStarts sol rows cols x.1 = true := by
  intro L
  induction L with
  | nil => intro c x hx; simp [specScan] at hx
  | cons ij rest ih =>
    intro c x hx
    by_cases hs : (specStartsAcross sol cols ij.1 ij.2 || specStartsDown sol rows ij.1 ij.2) = true
    · simp [specScan, hs] at hx
      rcases hx with hx | hx
      · subst hx
        simpa [specStarts] using hs
      · exact ih (c + 1) x hx
    · simp [specScan, hs] at hx
      exact ih c x hx

theorem specScan_lengths (sol : List (List Nat)) (rows cols : Nat) :
    ∀ (L : List (Nat × Nat)) (c : Nat),
      (specScan sol rows cols L c).1.length = L.countP (specStarts sol rows cols) ∧
      (specScan sol rows cols L c).2.1.length =
        L.countP (fun ij => specStartsAcross sol cols ij.1 ij.2) ∧
      (specScan sol rows cols L c).2.2.length =
        L.countP (fun ij => specStartsDown sol rows ij.1 ij.2) := by
  intro L
  induction L with
  | nil => intro c; simp [specScan]
  | cons ij rest ih =>
    intro c
    obtain ⟨ih1, ih2, ih3⟩ := ih (c + 1)
    obtain ⟨ih10, ih20, ih30⟩ := ih c
    by_cases hA : specStartsAcross sol cols ij.1 ij.2 = true <;>
      by_cases hD : specStartsDown sol rows ij.1 ij.2 = true <;>
        simp [specScan, specStarts, hA, hD, List.countP_cons, ih1, ih2, ih3, ih10, ih20, ih30]

theorem mem_scanOrder {rows cols : Nat} {ij : Nat × Nat}
    (h : ij ∈ scanOrder rows cols) : ij.1 < rows ∧ ij.2 < cols := by
  simp only [scanOrder, List.mem_flatMap, List.mem_map, List.mem_range] at h
  obtain ⟨i, hi, j, hj, rfl⟩ := h
  exact ⟨hi, hj⟩

theorem isAcrossCell_congr (g1 g2 : List (List Nat)) (rows cols i j : Nat)
    (hi : i < rows) (hj : j < cols)
    (hb : ∀ a b, a < rows → b < cols → isBlackCell g1 a b = isBlackCell g2 a b) :
    isAcrossCell g1 cols i j = isAcrossCell g2 cols i j := by
  have h0 := hb i j hi hj
  have h1 := hb i (j - 1) hi (Nat.lt_of_le_of_lt (Nat.sub_le j 1) hj)
  by_cases h2 : j + 1 < cols
  · have h3 := hb i (j + 1) hi h2
    simp [isAcrossCell, h0, h1, h3]
  · simp [isAcrossCell, h0, h1, h2]

theorem isDownCell_congr (g1 g2 : List (List Nat)) (rows cols i j : Nat)
    (hi : i < rows) (hj : j < cols)
    (hb : ∀ a b, a < rows → b < cols → isBlackCell g1 a b = isBlackCell g2 a b) :
    isDownCell g1 rows i j = isDownCell g2 rows i j := by
  have h0 := hb i j hi hj
  have h1 := hb (i - 1) j (Nat.lt_of_le_of_lt (Nat.sub_le i 1) hi) hj
  by_cases h2 : i + 1 < rows
  · have h3 := hb (i + 1) j h2 hj
    simp [isDownCell, h0, h1, h3]
  · simp [isDownCell, h0, h1, h2]

theorem specScan_congr (g1 g2 : List (List Nat)) (rows cols : Nat)
    (hb : ∀ a b, a < rows → b < cols → isBlackCell g1 a b = isBlackCell g2 a b) :
    ∀ (L : List (Nat × Nat)), (∀ ij ∈ L, ij.1 < rows ∧ ij.2 < cols) →
      ∀ c, specScan g1 rows cols L c = specScan g2 rows cols L c := by
  intro L
  induction L with
  | nil => intro _ c; simp [specScan]
  | cons ij rest ih =>
    intro hmem c
    obtain ⟨hi, hj⟩ := hmem ij (List.mem_cons_self ij rest)
    have hrest : ∀ ij' ∈ rest, ij'.1 < rows ∧ ij'.2 < cols :=
      fun ij' h' => hmem ij' (List.mem_cons_of_mem _ h')
    have hA : specStartsAcross g1 cols ij.1 ij.2 = specStartsAcross g2 cols ij.1 ij.2 := by
      rw [← isAcrossCell_eq_spec, ← isAcrossCell_eq_spec]
      exact isAcrossCell_congr g1 g2 rows cols ij.1 ij.2 hi hj hb
    have hD : specStartsDown g1 rows ij.1 ij.2 = specStartsDown g2 rows ij.1 ij.2 := by
      rw [← isDownCell_eq_spec, ← isDownCell_eq_spec]
      exact isDownCell_congr g1 g2 rows cols ij.1 ij.2 hi hj hb
    have e1 := ih hrest (c + 1)
    have e2 := ih hrest c
    simp only [specScan, hA, hD, e1, e2]

/-- C1: `SetSolution` numbers cells by a row-major scan: a non-black cell
starts an across (resp. down) entry exactly under the spec's conditions,
and a successful call produces exactly the cell-number map and the
across/down clue slots (number, empty text) of the single-shared-counter
scan `specScan` over `scanOrder` starting at 0; concretely, on the 5x5
grid ["CATCH", ".BOA.", "MARNE", ".T.O.", "FERNY"], cell (0,0) gets
number 0 and cell (2,0) gets number 5. -/
theorem setSolution_rowMajor_numbering :
    (∀ sol cols row col, isAcrossCell sol cols row col = specStartsAcross sol cols row col) ∧
    (∀ sol rows row col, isDownCell sol rows row col = specStartsDown sol rows row col) ∧
    (∀ (p : Puzzle) (grid : List (List Nat)) (p' : Puzzle),
      Puzzle.SetSolution p grid = (p', none) →
      p'.cellCoords = (specScan grid p.Rows p.Cols (scanOrder p.Rows p.Cols) 0).1 ∧
      p'.cluesAcross = (specScan grid p.Rows p.Cols (scanOrder p.Rows p.Cols) 0).2.1 ∧
      p'.cluesDown = (specScan grid p.Rows p.Cols (scanOrder p.Rows p.Cols) 0).2.2) ∧
    List.lookup (0, 0) (Puzzle.SetSolution puzzle5 grid5).1.cellCoords = some 0 ∧
    List.lookup (2, 0) (Puzzle.SetSolution puzzle5 grid5).1.cellCoords = some 5 := by
  refine ⟨isAcrossCell_eq_spec, isDownCell_eq_spec, ?_, by decide, by decide⟩
  intro p grid p' h
  obtain ⟨-, -, h3⟩ := setSolution_ok_elim p grid p' h
  subst h3
  exact ⟨rfl, rfl, rfl⟩

/-- Witness for `setSolution_rowMajor_numbering` at the 5x5 grid. -/
theorem setSolution_rowMajor_numbering_witness :
    (Puzzle.SetSolution puzzle5 grid5).1.cellCoords =
      (specScan grid5 puzzle5.Rows puzzle5.Cols (scanOrder puzzle5.Rows puzzle5.Cols) 0).1 :=
  (setSolution_rowMajor_numbering.2.2.1 puzzle5 grid5 (Puzzle.SetSolution puzzle5 grid5).1
    (by decide)).1

/-- C7: `SetSolution` rejects a grid whose row count differs from the
declared `Rows`, or containing a row whose length differs from `Cols`,
with a dimension-mismatch error, leaving all puzzle state unchanged. -/
theorem setSolution_rejects_bad_dims (p : Puzzle) (grid : List (List Nat))
    (h : grid.length ≠ p.Rows ∨ ∃ r ∈ grid, r.length ≠ p.Cols) :
    (Puzzle.SetSolution p grid).1 = p ∧ (Puzzle.SetSolution p grid).2 ≠ none :=
  setSolution_err p grid h

/-- Witness for `setSolution_rejects_bad_dims`: one row offered to a 5x5
puzzle. -/
theorem setSolution_rejects_bad_dims_witness :
    (Puzzle.SetSolution puzzle5 [[65]]).1 = puzzle5 ∧
      (Puzzle.SetSolution puzzle5 [[65]]).2 ≠ none :=
  setSolution_rejects_bad_dims puzzle5 [[65]] (Or.inl (by decide))

/-- C8: after a successful `SetSolution`, the stored solution has exactly
`Rows` rows of length `Cols`; the across and the down clue numbers are
strictly increasing; cell numbers are assigned consecutively from 0 in
scan order; every numbered cell starts an across or a down entry; and the
number of across clues plus down clues equals the total number of
(cell, direction) starts. -/
theorem setSolution_invariants (p : Puzzle) (grid : List (List Nat)) (p' : Puzzle)
    (h : Puzzle.SetSolution p grid = (p', none)) :
    p'.solution.length = p.Rows ∧
    (∀ r ∈ p'.solution, r.length = p.Cols) ∧
    List.Pairwise (· < ·) (p'.cluesAcross.map Clue.Num) ∧
    List.Pairwise (· < ·) (p'.cluesDown.map Clue.Num) ∧
    p'.cellCoords.map Prod.snd = List.range p'.cellCoords.length ∧
    (∀ x ∈ p'.cellCoords,
      isAcrossCell grid p.Cols x.1.1 x.1.2 = true ∨ isDownCell grid p.Rows x.1.1 x.1.2 = true) ∧
    p'.cluesAcross.length + p'.cluesDown.length =
      (scanOrder p.Rows p.Cols).countP (fun ij => isAcrossCell grid p.Cols ij.1 ij.2) +
      (scanOrder p.Rows p.Cols).countP (fun ij => isDownCell grid p.Rows ij.1 ij.2) := by
  obtain ⟨h1, h2, h3⟩ := setSolution_ok_elim p grid p' h
  subst h3
  obtain ⟨hsubA, hsubD⟩ :=
    specScan_nums_sublist grid p.Rows p.Cols (scanOrder p.Rows p.Cols) 0
  refine ⟨h1, h2, ?_, ?_, ?_, ?_, ?_⟩
  · exact List.Pairwise.sublist hsubA (List.pairwise_lt_range' 0 _)
  · exact List.Pairwise.sublist hsubD (List.pairwise_lt_range' 0 _)
  · rw [specScan_map_snd, (specScan_lengths grid p.Rows p.Cols (scanOrder p.Rows p.Cols) 0).1,
      List.range_eq_range']
  · intro x hx
    have hs := specScan_mem_starts grid p.Rows p.Cols (scanOrder p.Rows p.Cols) 0 x hx
    rw [specStarts, Bool.or_eq_true_iff] at hs
    rw [isAcrossCell_eq_spec, isDownCell_eq_spec]
    exact hs
  · obtain ⟨-, hl2, hl3⟩ :=
      specScan_lengths grid p.Rows p.Cols (scanOrder p.Rows p.Cols) 0
    simp only [isAcrossCell_eq_spec, isDownCell_eq_spec]
    rw [hl2, hl3]

/-- Witness for `setSolution_invariants` at the 5x5 grid. -/
theorem setSolution_invariants_witness :
    List.Pairwise (· < ·) ((Puzzle.SetSolution puzzle5 grid5).1.cluesAcross.map Clue.Num) :=
  (setSolution_invariants puzzle5 grid5 (Puzzle.SetSolution puzzle5 grid5).1
    (by decide)).2.2.1

/-- C9: numbering depends only on the black/non-black pattern: two
solution grids of the declared dimensions with black cells at exactly the
same coordinates produce identical cell-number mappings and identical
across and down clue lists. -/
theorem setSolution_pattern_only (p : Puzzle) (g1 g2 : List (List Nat))
    (h1 : g1.length = p.Rows) (h1c : ∀ r ∈ g1, r.length = p.Cols)
    (h2 : g2.length = p.Rows) (h2c : ∀ r ∈ g2, r.length = p.Cols)
    (hb : ∀ a b, a < p.Rows → b < p.Cols → isBlackCell g1 a b = isBlackCell g2 a b) :
    (Puzzle.SetSolution p g1).2 = none ∧ (Puzzle.SetSolution p g2).2 = none ∧
    (Puzzle.SetSolution p g1).1.cellCoords = (Puzzle.SetSolution p g2).1.cellCoords ∧
    (Puzzle.SetSolution p g1).1.cluesAcross = (Puzzle.SetSolution p g2).1.cluesAcross ∧
    (Puzzle.SetSolution p g1).1.cluesDown = (Puzzle.SetSolution p g2).1.cluesDown := by
  have hscan := specScan_congr g1 g2 p.Rows p.Cols hb (scanOrder p.Rows p.Cols)
    (fun ij hij => mem_scanOrder hij) 0
  rw [setSolution_ok_eq p g1 h1 h1c, setSolution_ok_eq p g2 h2 h2c]
  simp [hscan]

/-- Witness for `setSolution_pattern_only`: "AB"/".C" versus "DE"/".F". -/
theorem setSolution_pattern_only_witness :
    (Puzzle.SetSolution puzzle2 gridB1).1.cellCoords =
      (Puzzle.SetSolution puzzle2 gridB2).1.cellCoords :=
  (setSolution_pattern_only puzzle2 gridB1 gridB2 (by decide) (by decide) (by decide)
    (by decide)
    (by
      intro a b ha hb
      have ha2 : a < 2 := ha
      have hb2 : b < 2 := hb
      interval_cases a <;> interval_cases b <;> rfl)).2.2.1

/-- C5 counterexample: `buf6`'s notes field hits end-of-buffer after the
byte "X"; structural parsing succeeds, but the notes value is the partial
text [88] ("X"), not an empty/absent value. -/
theorem notes_truncation_counterexample :
    (parseStruct buf6).map AcrossLite.Notes = .ok [88] ∧ ([88] : List Nat) ≠ [] := by
  exact ⟨by decide, by decide⟩

/-- C5 (amended): reaching end-of-buffer while reading the trailing notes
field is not a decode error; decoding continues, and the notes value is
set to the bytes read before end-of-buffer (so it is empty exactly when
the buffer ends at the start of the notes field): the notes read returns
the whole NUL-free remainder with the tolerated eof flag, `buf6` (notes
region "X") parses with notes [88], and `buf5e` (empty notes region)
parses with notes []. -/
theorem notes_truncation_tolerated :
    (∀ rest : List Nat, (∀ b ∈ rest, b ≠ 0) → readStr rest = (rest, [], true)) ∧
    (parseStruct buf6).map AcrossLite.Notes = .ok [88] ∧
    (parseStruct buf5e).map AcrossLite.Notes = .ok [] := by
  refine ⟨?_, by decide, by decide⟩
  intro rest
  induction rest with
  | nil => intro _; rfl
  | cons b r ih =>
    intro h
    have hb : b ≠ 0 := h b (List.mem_cons_self b r)
    have hr := ih (fun x hx => h x (List.mem_cons_of_mem b hx))
    simp [readStr, hb, hr]

/-- Witness for `notes_truncation_tolerated` at the one-byte remainder
[88]. -/
theorem notes_truncation_tolerated_witness :
    readStr [88] = ([88], [], true) :=
  notes_truncation_tolerated.1 [88] (by decide)

/-- C6: `buf6` passes structural parsing with non-empty truncated notes
([88]); `Verify` evaluates the notes slice d[3:5] of the 4-byte text
region, which is out of range, so `Verify`, `Parse` and `Puzzle.Load`
all panic (modelled `none`) rather than returning an error: `Load` is not
total over byte inputs. -/
theorem load_panics_on_truncated_notes :
    (parseStruct buf6).map AcrossLite.Notes = .ok [88] ∧
    ([88] : List Nat) ≠ [] ∧
    (parseStruct buf6).map AcrossLite.textTail = .ok (some (33229, 0, 3)) ∧
    goSlice [0, 0, 0, 88] 3 (3 + 1 + 1) = none ∧
    (parseStruct buf6).map AcrossLite.Verify = .ok none ∧
    AcrossLite.Parse buf6 = none ∧
    Puzzle.Load emptyPuzzle buf6 = none := by
  exact ⟨by decide, by decide, by decide, by decide, by decide, by decide, by decide⟩

/-- C10 counterexample: the 13-byte buffer `data13` has only 11 bytes at
offset 0x02 (which therefore do not equal the 12 magic bytes), yet
`Sniff` returns true, because `bytes.Buffer.Read`'s partial read returns
no error and the zero padding of the 12-byte magic buffer completes the
magic string. -/
theorem sniff_short_buffer_counterexample :
    Sniff data13 = true ∧ (data13.drop 2).take 12 ≠ magicBytes ∧ data13.length = 13 := by
  exact ⟨by decide, by decide, by decide⟩

/-- C10 (amended): for buffers with at least 14 bytes, `Sniff` returns
true exactly when the 12 bytes at offset 0x02 equal "ACROSS&DOWN\x00"
(shorter buffers are sniffed against the zero-padded remainder); and
whenever `Sniff` is false, `Puzzle.Load` returns the no-provider-found
error without attempting a parse. -/
theorem sniff_magic_load_rules :
    (∀ data : List Nat, 14 ≤ data.length →
      (Sniff data = true ↔ (data.drop 2).take 12 = magicBytes)) ∧
    (∀ (p : Puzzle) (data : List Nat), Sniff data = false →
      Puzzle.Load p data =
        some (.error "no provider found that knows how to load this puzzle")) := by
  constructor
  · intro data h
    have hlen : 12 ≤ (data.drop 2).length := by
      rw [List.length_drop]
      omega
    have hz : 12 - (data.length - 2) = 0 := by omega
    have hne : (data.drop 2).isEmpty = false := by
      cases hD : data.drop 2 with
      | nil => rw [hD] at hlen; simp at hlen
      | cons x xs => rfl
    simp [Sniff, hne, hz]
  · intro p data h
    simp [Puzzle.Load, h]

/-- Witness for `sniff_magic_load_rules`: the valid buffer `bufOK` and
the empty buffer. -/
theorem sniff_magic_load_rules_witness :
    (Sniff bufOK = true ↔ (bufOK.drop 2).take 12 = magicBytes) ∧
    Puzzle.Load emptyPuzzle [] =
      some (.error "no provider found that knows how to load this puzzle") :=
  ⟨sniff_magic_load_rules.1 bufOK (by decide),
   sniff_magic_load_rules.2 emptyPuzzle [] (by decide)⟩

/-- C2 counterexample: `data12` declares version bytes "1.2\x00" (parsed
as version string "1.2" by the legacy decoder), has non-empty notes "N",
and its running whole-file checksum before notes (33229) differs from the
declared value (24730); `Verify` nevertheless accepts it, so the notes
plus NUL were chained into the accepted whole-file checksum despite the
1.2 version. -/
theorem verify_notes_version_counterexample :
    (parseStruct data12).map (fun a => (a.Data.drop 0x18).take 4) = .ok [49, 46, 50, 0] ∧
    pzVersionOf [49, 46, 50, 0] = [49, 46, 50] ∧
    (parseStruct data12).map AcrossLite.Notes = .ok [78] ∧
    (parseStruct data12).map AcrossLite.textTail = .ok (some (33229, 0, 3)) ∧
    (parseStruct data12).map AcrossLite.CksumFil = .ok 24730 ∧
    (33229 : Nat) ≠ 24730 ∧
    (parseStruct data12).map AcrossLite.Verify = .ok (some true) := by
  exact ⟨by decide, by decide, by decide, by decide, by decide, by decide, by decide⟩

/-- C2 (amended): in the xwd verifier the notes text plus NUL is chained
into the whole-file and partial checksums iff the running whole-file
checksum differs from the declared value and notes is non-empty — the
version is never consulted; in the legacy puzzle-package verifier it is
chained iff the version is neither "1.2" nor "1.2c" and notes is
non-empty — the running checksum is never consulted, so for versions
"1.2"/"1.2c" the legacy verifier never includes notes. -/
theorem notes_inclusion_rules :
    (∀ (fil : Nat) (notes d : List Nat) (st : Nat × Nat × Nat),
      st.1 = fil ∨ notes = [] → notesStep fil notes d st = some (st.1, st.2.1)) ∧
    (∀ (version notes d : List Nat) (st : Nat × Nat × Nat),
      version = [49, 46, 50] ∨ version = [49, 46, 50, 99] →
      pzNotesStep version notes d st = some (st.1, st.2.1)) ∧
    (∀ (version notes d : List Nat) (st : Nat × Nat × Nat) (b : List Nat),
      version ≠ [49, 46, 50] → version ≠ [49, 46, 50, 99] → notes ≠ [] →
      goSlice d st.2.2 (st.2.2 + notes.length + 1) = some b →
      pzNotesStep version notes d st = some (cksum b st.1, cksum b st.2.1)) := by
  refine ⟨?_, ?_, ?_⟩
  · intro fil notes d st h
    rcases h with h | h <;> simp [notesStep, h]
  · intro version notes d st h
    rcases h with h | h <;> simp [pzNotesStep, h]
  · intro version notes d st b h1 h2 h3 hs
    have hlen : notes.length > 0 := by
      cases notes with
      | nil => exact absurd rfl h3
      | cons x xs => simp
    simp [pzNotesStep, h1, h2, hlen, hs]

/-- Witness for `notes_inclusion_rules` at concrete states. -/
theorem notes_inclusion_rules_witness :
    notesStep 5 [78] [] (5, 0, 0) = some (5, 0) ∧
    pzNotesStep [49, 46, 50] [78] [] (7, 0, 0) = some (7, 0) ∧
    pzNotesStep [49, 46, 51] [78] [78, 0] (7, 9, 0) =
      some (cksum [78, 0] 7, cksum [78, 0] 9) :=
  ⟨notes_inclusion_rules.1 5 [78] [] (5, 0, 0) (Or.inl rfl),
   notes_inclusion_rules.2.1 [49, 46, 50] [78] [] (7, 0, 0) (Or.inl rfl),
   notes_inclusion_rules.2.2 [49, 46, 51] [78] [78, 0] (7, 9, 0) [78, 0]
     (by decide) (by decide) (by decide) (by decide)⟩

/-- C3: checksum verification recomputes the CIB, whole-file, partial and
masked checksums from the buffer and accepts exactly when every
comparison against the header-declared values succeeds (`verifySpec` is
the straight-line all-comparisons-must-pass verifier), and `Parse` maps
the verification outcome of a structurally parsed buffer to success or
the "checksums aren't correct" error with no partial-success state. -/
theorem parse_checksum_gate :
    (∀ a : AcrossLite, a.Verify = some true ↔ verifySpec a = some true) ∧
    (∀ (data : List Nat) (a : AcrossLite), parseStruct data = .ok a →
      AcrossLite.Parse data =
        (a.Verify).map fun b => if b then .ok a else .error "checksums aren't correct") := by
  constructor
  · intro a
    unfold AcrossLite.Verify verifySpec
    rcases h1 : goSlice a.Data 0x2c (0x2c + 8) with _ | dCib <;> simp [h1]
    rcases h2 : goSlice a.Data 0x34 (0x34 + a.Cols * a.Rows) with _ | dSol <;> simp [h2]
    rcases h3 : goSlice a.Data (0x34 + a.Cols * a.Rows)
        (0x34 + a.Cols * a.Rows + a.Cols * a.Rows) with _ | dGrid <;> simp [h3]
    by_cases hc : cksum dCib 0x0000 = a.CksumCib
    · rw [if_pos hc]
      rcases h4 : goSliceFrom a.Data (0x34 + a.Cols * a.Rows + a.Cols * a.Rows)
        with _ | d <;> simp [h4]
      rcases h5 : textField d a.Title
          (cksum dGrid (cksum dSol (cksum dCib 0x0000)), 0x0000, 0) with _ | st1 <;>
        simp [h5]
      rcases h6 : textField d a.Author st1 with _ | st2 <;> simp [h6]
      rcases h7 : textField d a.Copyright st2 with _ | st3 <;> simp [h7]
      rcases h8 : clueFold d a.Clues st3 with _ | st4 <;> simp [h8]
      rcases h9 : notesStep a.CksumFil a.Notes d st4 with _ | fp <;> simp [h9]
      rw [hc]
      by_cases hf : fp.1 = a.CksumFil <;>
        by_cases hm : mask8 a.CksumCib (cksum dSol 0x0000) (cksum dGrid 0x0000) fp.2
            = a.CksumMsk <;>
          simp [hf, hm]
    · rw [if_neg hc]
      rcases h4 : goSliceFrom a.Data (0x34 + a.Cols * a.Rows + a.Cols * a.Rows)
        with _ | d <;> simp [h4]
      rcases h5 : textField d a.Title
          (cksum dGrid (cksum dSol (cksum dCib 0x0000)), 0x0000, 0) with _ | st1 <;>
        simp [h5]
      rcases h6 : textField d a.Author st1 with _ | st2 <;> simp [h6]
      rcases h7 : textField d a.Copyright st2 with _ | st3 <;> simp [h7]
      rcases h8 : clueFold d a.Clues st3 with _ | st4 <;> simp [h8]
      rcases h9 : notesStep a.CksumFil a.Notes d st4 with _ | fp <;> simp [h9]
      simp [hc]
  · intro data a h
    unfold AcrossLite.Parse
    rw [h]
    rcases hv : a.Verify with _ | b
    · simp [hv]
    · cases b <;> simp [hv]

/-- Witness for `parse_checksum_gate` at the valid buffer `bufOK`. -/
theorem parse_checksum_gate_witness :
    AcrossLite.Parse bufOK =
      ((AcrossLite.Verify alOK).map
        fun b => if b then .ok alOK else .error "checksums aren't correct") :=
  parse_checksum_gate.2 bufOK alOK (by decide)

end Xwd
